import Mathlib

/-!
Verification of the Audit Runner wrapper (`src/debug_audit.py`).

The program is a single function `run()`:

```python
def run():
    print("Starting Audit...")
    try:
        result = subprocess.run(
            [sys.executable, ".agent/skills/frontend-design/scripts/ux_audit.py", "."],
            capture_output=True, text=True, encoding='utf-8', errors='ignore')
        print("STDOUT:")
        print(result.stdout)
        print("STDERR:")
        print(result.stderr)
        print(f"EXIT CODE: {result.returncode}")
    except Exception as e:
        print(f"FAILED: {e}")
```

We embed `run` shallowly as a function of an environment describing the
non-deterministic parts: the interpreter path (`sys.executable`), whether the
banner `print` call itself raises, and the outcome of the `subprocess.run`
launch (completion with raw stdout/stderr byte streams and an integer exit
code, or a raised exception, which in Python either derives from `Exception`
— caught by the handler — or only from `BaseException`, such as `SystemExit`,
which the handler does not catch).  The embedding returns the ordered trace
of externally visible effects (console writes and the one launch attempt)
together with the exception, if any, that propagates to the caller.
-/

set_option maxHeartbeats 1000000

namespace DebugAudit

/-! ### Decimal rendering of integers (Python `str` on `int`) -/

/-- Lookup table for the ten decimal digit characters. -/
def digitChar (d : Nat) : Char :=
  (['0', '1', '2', '3', '4', '5', '6', '7', '8', '9']).getD d '0'

/-- Accumulator loop producing the decimal digits of a natural number
(most significant first); produces nothing for `0`.  The first argument is
fuel, structurally decreasing; `natStr` supplies enough fuel that it never
runs out. -/
def natStrAux : Nat → Nat → List Char → List Char
  | 0, _, acc => acc
  | fuel + 1, n, acc =>
    if n = 0 then acc else natStrAux fuel (n / 10) (digitChar (n % 10) :: acc)

/-- Decimal digits of a natural number, `0` rendered as `"0"`. -/
def natStr (n : Nat) : List Char :=
  if n = 0 then ['0'] else natStrAux n n []

/-- Python's `str` on an integer: decimal digits, with a leading `'-'` for
negative values. -/
def intStr (i : Int) : String :=
  if i < 0 then String.mk ('-' :: natStr i.natAbs) else String.mk (natStr i.toNat)

/-! ### UTF-8 decoding with an error policy

`subprocess.run(..., text=True, encoding='utf-8', errors='ignore')` decodes
the captured byte streams as UTF-8; under the `'ignore'` policy, bytes that
do not form a valid UTF-8 sequence are skipped, while under `'strict'`
(Python's default) they raise `UnicodeDecodeError`, modelled as `none`. -/

/-- The decoding error policy: Python's `errors='strict'` (default, failure
on invalid bytes) versus `errors='ignore'` (invalid bytes skipped). -/
inductive DecodeErrors where
  | strict
  | ignore
deriving DecidableEq

/-- A UTF-8 continuation byte. -/
def contByte (b : Nat) : Bool := decide (0x80 ≤ b ∧ b ≤ 0xBF)

/-- Valid second byte of a three-byte sequence led by `b` (excludes overlong
encodings and surrogate code points, as UTF-8 requires). -/
def cont2ok (b b2 : Nat) : Bool :=
  if b = 0xE0 then decide (0xA0 ≤ b2 ∧ b2 ≤ 0xBF)
  else if b = 0xED then decide (0x80 ≤ b2 ∧ b2 ≤ 0x9F)
  else contByte b2

/-- Valid second byte of a four-byte sequence led by `b` (excludes overlong
encodings and code points above `U+10FFFF`). -/
def cont3ok (b b2 : Nat) : Bool :=
  if b = 0xF0 then decide (0x90 ≤ b2 ∧ b2 ≤ 0xBF)
  else if b = 0xF4 then decide (0x80 ≤ b2 ∧ b2 ≤ 0x8F)
  else contByte b2

/-- Prepend the character with code point `c` to a string. -/
def chrCons (c : Nat) (s : String) : String :=
  String.mk (Char.ofNat c :: s.data)

/-- React to an invalid byte at the head of `b :: rest`: `strict` fails
(`none`, modelling `UnicodeDecodeError`); `ignore` drops the byte and
resumes decoding from `rest` using `next` (the decoder itself). -/
def onBad (p : DecodeErrors) (next : Option String) : Option String :=
  match p with
  | .strict => none
  | .ignore => next

/-- The code point of a two-byte UTF-8 sequence. -/
def cp2 (b b2 : Nat) : Nat := (b - 0xC0) * 64 + (b2 - 0x80)

/-- The code point of a three-byte UTF-8 sequence. -/
def cp3 (b b2 b3 : Nat) : Nat :=
  (b - 0xE0) * 4096 + (b2 - 0x80) * 64 + (b3 - 0x80)

/-- The code point of a four-byte UTF-8 sequence. -/
def cp4 (b b2 b3 b4 : Nat) : Nat :=
  (b - 0xF0) * 262144 + (b2 - 0x80) * 4096 + (b3 - 0x80) * 64 + (b4 - 0x80)

/-- Decode a byte list as UTF-8 under policy `p`: on an invalid byte,
`strict` fails (`none`, modelling `UnicodeDecodeError`), while `ignore`
skips the byte and resumes — so `ignore` can never fail.  The four cases
repeat the same per-byte logic specialised to how much lookahead the list
still offers, which keeps every recursive call on a structural subterm. -/
def decodeUtf8 (p : DecodeErrors) : List Nat → Option String
  | [] => some ""
  | [b] =>
    if b ≤ 0x7F then (decodeUtf8 p []).map (chrCons b)
    else onBad p (decodeUtf8 p [])
  | [b, b2] =>
    if b ≤ 0x7F then (decodeUtf8 p [b2]).map (chrCons b)
    else if 0xC2 ≤ b ∧ b ≤ 0xDF then
      if contByte b2 then (decodeUtf8 p []).map (chrCons (cp2 b b2))
      else onBad p (decodeUtf8 p [b2])
    else onBad p (decodeUtf8 p [b2])
  | [b, b2, b3] =>
    if b ≤ 0x7F then (decodeUtf8 p [b2, b3]).map (chrCons b)
    else if 0xC2 ≤ b ∧ b ≤ 0xDF then
      if contByte b2 then (decodeUtf8 p [b3]).map (chrCons (cp2 b b2))
      else onBad p (decodeUtf8 p [b2, b3])
    else if 0xE0 ≤ b ∧ b ≤ 0xEF then
      if cont2ok b b2 && contByte b3 then
        (decodeUtf8 p []).map (chrCons (cp3 b b2 b3))
      else onBad p (decodeUtf8 p [b2, b3])
    else onBad p (decodeUtf8 p [b2, b3])
  | b :: b2 :: b3 :: b4 :: rest4 =>
    if b ≤ 0x7F then (decodeUtf8 p (b2 :: b3 :: b4 :: rest4)).map (chrCons b)
    else if 0xC2 ≤ b ∧ b ≤ 0xDF then
      if contByte b2 then (decodeUtf8 p (b3 :: b4 :: rest4)).map (chrCons (cp2 b b2))
      else onBad p (decodeUtf8 p (b2 :: b3 :: b4 :: rest4))
    else if 0xE0 ≤ b ∧ b ≤ 0xEF then
      if cont2ok b b2 && contByte b3 then
        (decodeUtf8 p (b4 :: rest4)).map (chrCons (cp3 b b2 b3))
      else onBad p (decodeUtf8 p (b2 :: b3 :: b4 :: rest4))
    else if 0xF0 ≤ b ∧ b ≤ 0xF4 then
      if cont3ok b b2 && contByte b3 && contByte b4 then
        (decodeUtf8 p rest4).map (chrCons (cp4 b b2 b3 b4))
      else onBad p (decodeUtf8 p (b2 :: b3 :: b4 :: rest4))
    else onBad p (decodeUtf8 p (b2 :: b3 :: b4 :: rest4))

/-- The text captured from a child stream: its raw bytes decoded under the
`'ignore'` policy (total, since `ignore` never fails). -/
def decodeIgnore (bs : List Nat) : String :=
  (decodeUtf8 .ignore bs).getD ""

/-! ### The model of `run` -/

/-- A raised Python exception, classified by whether it derives from
`Exception` (caught by `except Exception`) or only from `BaseException`
(such as `SystemExit` or `KeyboardInterrupt`, not caught). -/
inductive Exn where
  | exception (msg : String)
  | baseOnly (msg : String)
deriving DecidableEq

/-- The outcome of the `subprocess.run` call: either the child process was
created and ran to completion — yielding the raw bytes of its stdout and
stderr and its integer exit code — or the launch attempt raised. -/
inductive LaunchOutcome where
  | completed (stdoutBytes stderrBytes : List Nat) (returncode : Int)
  | raised (e : Exn)
deriving DecidableEq

/-- The environment a single invocation of `run` executes in. -/
structure Env where
  /-- `sys.executable`: the path of the current interpreter binary. -/
  executable : String
  /-- Whether the banner `print` call itself raises (it sits outside the
  `try` block). `none` is the ordinary case. -/
  bannerRaise : Option Exn
  /-- Outcome of the `subprocess.run` launch attempt. -/
  launch : LaunchOutcome
deriving DecidableEq

/-- An externally visible effect of `run`: a write to standard output, or
the (single) attempt to launch the child process with a given argv. -/
inductive Effect where
  | printStr (s : String)
  | spawn (argv : List String)
deriving DecidableEq

/-- Python's `print(s)`: writes `s` followed by a newline. -/
def printLn (s : String) : Effect := .printStr (s ++ "\n")

/-- What one invocation of `run` did: its ordered effect trace, and the
exception that propagated to the caller, if any. -/
structure RunResult where
  effects : List Effect
  raised : Option Exn
deriving DecidableEq

/-- The fixed relative path of the target script. -/
def scriptPath : String := ".agent/skills/frontend-design/scripts/ux_audit.py"

/-- The invocation spec: `[sys.executable, scriptPath, "."]`. -/
def buildArgv (exe : String) : List String := [exe, scriptPath, "."]

/-- Shallow embedding of `run()` from `src/debug_audit.py`. -/
def run (env : Env) : RunResult :=
  match env.bannerRaise with
  | some e => ⟨[], some e⟩
  | none =>
    let bannerEff := printLn "Starting Audit..."
    let argv := buildArgv env.executable
    match env.launch with
    | .completed outB errB code =>
      ⟨[bannerEff, .spawn argv,
        printLn "STDOUT:",
        printLn (decodeIgnore outB),
        printLn "STDERR:",
        printLn (decodeIgnore errB),
        printLn ("EXIT CODE: " ++ intStr code)], none⟩
    | .raised (.exception msg) =>
      ⟨[bannerEff, .spawn argv, printLn ("FAILED: " ++ msg)], none⟩
    | .raised (.baseOnly msg) =>
      ⟨[bannerEff, .spawn argv], some (.baseOnly msg)⟩

/-- The text printed to the console by a trace: the concatenation of all
console writes, in order. -/
def outputOf : List Effect → String
  | [] => ""
  | .printStr s :: es => s ++ outputOf es
  | .spawn _ :: es => outputOf es

/-- The argv of every launch attempt in a trace, in order. -/
def spawnsOf : List Effect → List (List String)
  | [] => []
  | .printStr _ :: es => spawnsOf es
  | .spawn a :: es => a :: spawnsOf es

/-! ### Lines of a printed output -/

/-- Split a character list into its lines at `'\n'` separators (as Python
text would be displayed); a trailing newline yields a final empty line. -/
def splitNL : List Char → List (List Char)
  | [] => [[]]
  | c :: cs =>
    if c = '\n' then [] :: splitNL cs
    else
      match splitNL cs with
      | [] => [[c]]
      | l :: ls => (c :: l) :: ls

/-- `beginsWith p l` holds when `p` is an initial segment of `l`. -/
def beginsWith : List Char → List Char → Bool
  | [], _ => true
  | _ :: _, [] => false
  | p :: ps, c :: cs => p == c && beginsWith ps cs

/-- Some line of the text `s` starts with the text `p`. -/
def hasLineStarting (p s : String) : Bool :=
  (splitNL s.data).any fun l => beginsWith p.data l

/-- Some line of the text `s` is exactly the text `l`. -/
def containsLine (l s : String) : Bool :=
  (splitNL s.data).any fun x => x == l.data

/-! ### Helper lemmas about the decoder -/

theorem isSome_option_map {α β : Type} (f : α → β) (o : Option α) :
    (o.map f).isSome = o.isSome := by
  cases o <;> rfl

theorem onBad_ignore (o : Option String) : onBad .ignore o = o := rfl

theorem decodeUtf8_ignore_isSome_of_le :
    ∀ n (bs : List Nat), bs.length ≤ n →
      (decodeUtf8 .ignore bs).isSome = true := by
  intro n
  induction n with
  | zero =>
    intro bs h
    have hbs : bs = [] := List.length_eq_zero.mp (Nat.le_zero.mp h)
    subst hbs
    simp [decodeUtf8]
  | succ n ih =>
    intro bs h
    rcases bs with _ | ⟨b, _ | ⟨b2, _ | ⟨b3, _ | ⟨b4, rest4⟩⟩⟩⟩
    all_goals simp only [decodeUtf8, onBad_ignore]
    all_goals (try simp only [List.length_cons] at h)
    all_goals repeat' split
    all_goals (try simp only [isSome_option_map])
    all_goals first
      | rfl
      | (apply ih; (try simp only [List.length_cons, List.length_nil]); omega)

theorem decodeUtf8_ignore_isSome (bs : List Nat) :
    (decodeUtf8 .ignore bs).isSome = true :=
  decodeUtf8_ignore_isSome_of_le bs.length bs le_rfl

/-! ### Helper lemmas about lines -/

theorem splitNL_ne_nil (s : List Char) : splitNL s ≠ [] := by
  induction s with
  | nil => simp [splitNL]
  | cons c cs ih =>
    simp only [splitNL]
    split
    · simp
    · rcases h : splitNL cs with _ | ⟨l, ls⟩ <;> simp

theorem splitNL_length (s : List Char) :
    (splitNL s).length = s.count '\n' + 1 := by
  induction s with
  | nil => simp [splitNL]
  | cons c cs ih =>
    by_cases hc : c = '\n'
    · subst hc
      simp [splitNL, ih, List.count_cons]
    · rcases h : splitNL cs with _ | ⟨l, ls⟩
      · exact absurd h (splitNL_ne_nil cs)
      · rw [h] at ih
        simp only [splitNL, if_neg hc, h, List.length_cons] at ih ⊢
        rw [List.count_cons]
        simp only [beq_iff_eq, hc, if_false]
        omega

theorem splitNL_sep (x y : List Char) (h : '\n' ∉ x) :
    splitNL (x ++ '\n' :: y) = x :: splitNL y := by
  induction x with
  | nil => simp [splitNL]
  | cons c cs ih =>
    have hc : c ≠ '\n' := fun hh => h (hh ▸ List.mem_cons_self c cs)
    have h' : '\n' ∉ cs := fun hh => h (List.mem_cons_of_mem c hh)
    simp only [List.cons_append, splitNL, if_neg hc, List.append_eq, ih h']

theorem splitNL_no_nl (l : List Char) (h : '\n' ∉ l) : splitNL l = [l] := by
  induction l with
  | nil => simp [splitNL]
  | cons c cs ih =>
    have hc : c ≠ '\n' := fun hh => h (hh ▸ List.mem_cons_self c cs)
    have h' : '\n' ∉ cs := fun hh => h (List.mem_cons_of_mem c hh)
    simp only [splitNL, if_neg hc, ih h']

theorem splitNL_snoc_nl (x : List Char) :
    splitNL (x ++ ['\n']) = splitNL x ++ [[]] := by
  induction x with
  | nil => simp [splitNL]
  | cons c cs ih =>
    by_cases hc : c = '\n'
    · subst hc
      simp only [List.cons_append, splitNL, List.append_eq, ih]
      simp
    · rcases h : splitNL cs with _ | ⟨l, ls⟩
      · exact absurd h (splitNL_ne_nil cs)
      · simp only [List.cons_append, splitNL, if_neg hc, List.append_eq, ih, h]

theorem splitNL_suffix (a y : List Char) :
    splitNL y <:+ splitNL (a ++ '\n' :: y) := by
  induction a with
  | nil =>
    simp only [List.nil_append, splitNL, if_pos rfl]
    exact List.suffix_cons _ _
  | cons c cs ih =>
    by_cases hc : c = '\n'
    · subst hc
      simp only [List.cons_append, splitNL, if_pos rfl]
      exact ih.trans (List.suffix_cons _ _)
    · simp only [List.cons_append, splitNL, if_neg hc]
      rcases h : splitNL (cs ++ '\n' :: y) with _ | ⟨l, ls⟩
      · exact absurd h (splitNL_ne_nil _)
      · rw [h] at ih
        rcases List.suffix_cons_iff.mp ih with heq | hsuf
        · have h1 := splitNL_length y
          have h2 := splitNL_length (cs ++ '\n' :: y)
          rw [heq] at h1
          rw [h] at h2
          simp only [List.count_append, List.count_cons, List.length_cons,
            beq_self_eq_true, if_true] at h1 h2
          omega
        · exact hsuf.trans (List.suffix_cons _ _)

theorem mem_splitNL_after_nl (a y l : List Char) (h : l ∈ splitNL y) :
    l ∈ splitNL (a ++ '\n' :: y) :=
  (splitNL_suffix a y).subset h

theorem splitNL_append_left (x y : List Char) (h : '\n' ∉ x) :
    ∃ l ls, splitNL y = l :: ls ∧ splitNL (x ++ y) = (x ++ l) :: ls := by
  induction x with
  | nil =>
    rcases hy : splitNL y with _ | ⟨l, ls⟩
    · exact absurd hy (splitNL_ne_nil y)
    · exact ⟨l, ls, rfl, by simp [hy]⟩
  | cons c cs ih =>
    have hc : c ≠ '\n' := fun hh => h (hh ▸ List.mem_cons_self c cs)
    have h' : '\n' ∉ cs := fun hh => h (List.mem_cons_of_mem c hh)
    obtain ⟨l, ls, h1, h2⟩ := ih h'
    refine ⟨l, ls, h1, ?_⟩
    simp only [List.cons_append, splitNL, if_neg hc, List.append_eq, h2]

/-! ### Helper lemmas about decimal rendering -/

theorem digitChar_ne_nl (d : Nat) : digitChar d ≠ '\n' := by
  unfold digitChar
  rcases Nat.lt_or_ge d 10 with h | h
  · interval_cases d <;> decide
  · rw [List.getD_eq_default _ _ (by simpa using h)]
    decide

theorem natStrAux_no_nl :
    ∀ fuel n acc, '\n' ∉ acc → '\n' ∉ natStrAux fuel n acc := by
  intro fuel
  induction fuel with
  | zero =>
    intro n acc h
    simpa [natStrAux] using h
  | succ fuel ih =>
    intro n acc h
    rw [natStrAux]
    split
    · exact h
    · apply ih
      intro hm
      rcases List.mem_cons.mp hm with hm | hm
      · exact digitChar_ne_nl (n % 10) hm.symm
      · exact h hm

theorem natStr_no_nl (n : Nat) : '\n' ∉ natStr n := by
  unfold natStr
  split
  · decide
  · exact natStrAux_no_nl n n [] (by simp)

theorem intStr_no_nl (i : Int) : '\n' ∉ (intStr i).data := by
  unfold intStr
  split
  · show '\n' ∉ '-' :: natStr i.natAbs
    intro hm
    rcases List.mem_cons.mp hm with hm | hm
    · exact absurd hm (by decide)
    · exact natStr_no_nl i.natAbs hm
  · show '\n' ∉ natStr i.toNat
    exact natStr_no_nl i.toNat

/-! ### Shape of the trace in each branch of `run` -/

theorem run_completed (env : Env) (outB errB : List Nat) (code : Int)
    (h1 : env.bannerRaise = none)
    (h2 : env.launch = .completed outB errB code) :
    run env =
      ⟨[printLn "Starting Audit...", .spawn (buildArgv env.executable),
        printLn "STDOUT:", printLn (decodeIgnore outB),
        printLn "STDERR:", printLn (decodeIgnore errB),
        printLn ("EXIT CODE: " ++ intStr code)], none⟩ := by
  simp only [run, h1, h2]

theorem run_exn (env : Env) (msg : String)
    (h1 : env.bannerRaise = none)
    (h2 : env.launch = .raised (.exception msg)) :
    run env =
      ⟨[printLn "Starting Audit...", .spawn (buildArgv env.executable),
        printLn ("FAILED: " ++ msg)], none⟩ := by
  simp only [run, h1, h2]

theorem run_baseOnly (env : Env) (msg : String)
    (h1 : env.bannerRaise = none)
    (h2 : env.launch = .raised (.baseOnly msg)) :
    run env =
      ⟨[printLn "Starting Audit...", .spawn (buildArgv env.executable)],
        some (.baseOnly msg)⟩ := by
  simp only [run, h1, h2]

theorem run_bannerRaise (env : Env) (e : Exn) (h1 : env.bannerRaise = some e) :
    run env = ⟨[], some e⟩ := by
  simp only [run, h1]

theorem outputOf_completed (env : Env) (outB errB : List Nat) (code : Int)
    (h1 : env.bannerRaise = none)
    (h2 : env.launch = .completed outB errB code) :
    outputOf (run env).effects =
      "Starting Audit...\n" ++ "STDOUT:\n" ++ decodeIgnore outB ++ "\n" ++
        "STDERR:\n" ++ decodeIgnore errB ++ "\n" ++
        "EXIT CODE: " ++ intStr code ++ "\n" := by
  rw [run_completed env outB errB code h1 h2]
  simp only [outputOf, printLn, String.append_empty, String.append_assoc]
  rfl

theorem outputOf_exn (env : Env) (msg : String)
    (h1 : env.bannerRaise = none)
    (h2 : env.launch = .raised (.exception msg)) :
    outputOf (run env).effects =
      "Starting Audit...\n" ++ "FAILED: " ++ msg ++ "\n" := by
  rw [run_exn env msg h1 h2]
  simp only [outputOf, printLn, String.append_empty, String.append_assoc]
  rfl

theorem beginsWith_head_ne (p c : Char) (ps cs : List Char) (h : p ≠ c) :
    beginsWith (p :: ps) (c :: cs) = false := by
  have hb : (p == c) = false := beq_eq_false_iff_ne.mpr h
  simp [beginsWith, hb]

/-! ### Claims -/

/-- Claim C1: when the child completes with exit code `code` and captured
texts `decodeIgnore outB` and `decodeIgnore errB`, the printed output is
the banner, the `STDOUT:` label, the stdout text, the `STDERR:` label, the
stderr text, and the `EXIT CODE:` line, in that order — and the output
indeed contains the full line `EXIT CODE: <code>` with the code rendered
in decimal. -/
theorem claim_C1_output_order (env : Env) (outB errB : List Nat) (code : Int)
    (h1 : env.bannerRaise = none)
    (h2 : env.launch = .completed outB errB code) :
    outputOf (run env).effects =
      "Starting Audit...\n" ++ "STDOUT:\n" ++ decodeIgnore outB ++ "\n" ++
        "STDERR:\n" ++ decodeIgnore errB ++ "\n" ++
        "EXIT CODE: " ++ intStr code ++ "\n" ∧
    containsLine ("EXIT CODE: " ++ intStr code) (outputOf (run env).effects) = true := by
  have hout := outputOf_completed env outB errB code h1 h2
  refine ⟨hout, ?_⟩
  rw [hout]
  have hLnl : '\n' ∉ ("EXIT CODE: " ++ intStr code).data := by
    rw [String.data_append]
    intro hm
    rcases List.mem_append.mp hm with hm | hm
    · exact absurd hm (by decide)
    · exact intStr_no_nl code hm
  have hdata : ("Starting Audit...\n" ++ "STDOUT:\n" ++ decodeIgnore outB ++ "\n" ++
        "STDERR:\n" ++ decodeIgnore errB ++ "\n" ++
        "EXIT CODE: " ++ intStr code ++ "\n").data =
      ("Starting Audit...\nSTDOUT:\n".data ++ (decodeIgnore outB).data ++
        "\nSTDERR:\n".data ++ (decodeIgnore errB).data) ++
        '\n' :: (("EXIT CODE: " ++ intStr code).data ++ ['\n']) := by
    simp only [String.data_append, List.append_assoc]
    rfl
  unfold containsLine
  rw [hdata]
  rw [List.any_eq_true]
  refine ⟨("EXIT CODE: " ++ intStr code).data, ?_, by simp⟩
  apply mem_splitNL_after_nl
  rw [splitNL_snoc_nl, splitNL_no_nl _ hLnl]
  simp

/-- Witness for C1 at stdout text `OK`, empty stderr and exit code 2. -/
theorem claim_C1_witness :
    outputOf (run ⟨"/usr/bin/python3", none,
        .completed [0x4F, 0x4B] [] 2⟩).effects =
      "Starting Audit...\n" ++ "STDOUT:\n" ++ decodeIgnore [0x4F, 0x4B] ++ "\n" ++
        "STDERR:\n" ++ decodeIgnore [] ++ "\n" ++
        "EXIT CODE: " ++ intStr 2 ++ "\n" ∧
    containsLine ("EXIT CODE: " ++ intStr 2)
      (outputOf (run ⟨"/usr/bin/python3", none,
        .completed [0x4F, 0x4B] [] 2⟩).effects) = true :=
  claim_C1_output_order _ _ _ _ rfl rfl

/-- Claim C2 counterexample: the claim states that on a launch failure the
output contains no `EXIT CODE:` line, for an error with any message text.
But the message text is echoed verbatim after `FAILED: `, so an exception
whose message itself embeds a line beginning `EXIT CODE:` makes the wrapper
print such a line. -/
theorem claim_C2_counterexample :
    (run ⟨"/usr/bin/python3", none,
        .raised (.exception "boom\nEXIT CODE: 7")⟩).raised = none ∧
    outputOf (run ⟨"/usr/bin/python3", none,
        .raised (.exception "boom\nEXIT CODE: 7")⟩).effects =
      "Starting Audit...\nFAILED: boom\nEXIT CODE: 7\n" ∧
    hasLineStarting "EXIT CODE:"
      (outputOf (run ⟨"/usr/bin/python3", none,
        .raised (.exception "boom\nEXIT CODE: 7")⟩).effects) = true :=
  ⟨rfl, rfl, by decide⟩

/-- Claim C2 (amended): on a launch failure raising an error with message
`msg`, the printed output is exactly the banner followed by the line
`FAILED: <msg>`, and — provided `msg` itself contains no line beginning
`EXIT CODE:` — the output contains no `EXIT CODE:` line. -/
theorem claim_C2_failure_report (env : Env) (msg : String)
    (h1 : env.bannerRaise = none)
    (h2 : env.launch = .raised (.exception msg)) :
    outputOf (run env).effects =
      "Starting Audit...\n" ++ "FAILED: " ++ msg ++ "\n" ∧
    (hasLineStarting "EXIT CODE:" msg = false →
      hasLineStarting "EXIT CODE:" (outputOf (run env).effects) = false) := by
  have hout := outputOf_exn env msg h1 h2
  refine ⟨hout, fun hmsg => ?_⟩
  rw [hout]
  unfold hasLineStarting at hmsg ⊢
  rw [List.any_eq_false] at hmsg
  have hdata : ("Starting Audit...\n" ++ "FAILED: " ++ msg ++ "\n").data =
      "Starting Audit...".data ++ '\n' :: ("FAILED: ".data ++ (msg.data ++ ['\n'])) := by
    simp only [String.data_append, List.append_assoc]
    rfl
  rw [hdata, splitNL_sep _ _ (by decide)]
  obtain ⟨l, ls, hsplit, happ⟩ :=
    splitNL_append_left ("FAILED: ".data) (msg.data ++ ['\n']) (by decide)
  rw [happ]
  rw [splitNL_snoc_nl] at hsplit
  rw [List.any_eq_false]
  intro x hx
  rcases List.mem_cons.mp hx with rfl | hx
  · decide
  rcases List.mem_cons.mp hx with rfl | hx
  · simp only [Bool.not_eq_true]
    exact beginsWith_head_ne _ _ _ _ (by decide)
  · have hx' : x ∈ splitNL msg.data ++ [[]] := by
      rw [hsplit]
      exact List.mem_cons_of_mem _ hx
    rcases List.mem_append.mp hx' with hx' | hx'
    · exact hmsg x hx'
    · have hxe : x = [] := by simpa using hx'
      subst hxe
      decide

/-- Witness for C2 (amended) at a realistic launch-failure message. -/
theorem claim_C2_witness :
    outputOf (run ⟨"/usr/bin/python3", none,
        .raised (.exception "No such file or directory")⟩).effects =
      "Starting Audit...\n" ++ "FAILED: " ++ "No such file or directory" ++ "\n" ∧
    hasLineStarting "EXIT CODE:"
      (outputOf (run ⟨"/usr/bin/python3", none,
        .raised (.exception "No such file or directory")⟩).effects) = false :=
  ⟨(claim_C2_failure_report _ _ rfl rfl).1,
   (claim_C2_failure_report _ _ rfl rfl).2 (by decide)⟩

/-- Claim C3: for every launch outcome — successful child completion with
any exit code, or a launch failure raising any error (in Python, an error
is an `Exception`-derived raise; exiting conditions such as `SystemExit`
are not errors and are treated in C10) — `run` completes and returns
normally, propagating no exception to its caller. -/
theorem claim_C3_never_raises (env : Env)
    (h1 : env.bannerRaise = none)
    (h2 : (∃ outB errB code, env.launch = .completed outB errB code) ∨
          (∃ msg, env.launch = .raised (.exception msg))) :
    (run env).raised = none := by
  rcases h2 with ⟨outB, errB, code, h⟩ | ⟨msg, h⟩
  · rw [run_completed env outB errB code h1 h]
  · rw [run_exn env msg h1 h]

/-- Witness for C3 at a concrete launch-failure environment. -/
theorem claim_C3_witness :
    (run ⟨"/usr/bin/python3", none,
      .raised (.exception "No such file or directory")⟩).raised = none :=
  claim_C3_never_raises _ rfl (Or.inr ⟨_, rfl⟩)

/-- Claim C4: every integer exit code of the child, zero or not, takes the
success path — the trace is the success-shaped trace, which prints the code
verbatim in the `EXIT CODE:` line, and nothing is raised; the `FAILED:`
branch is not taken. -/
theorem claim_C4_nonzero_exit_is_data (env : Env) (outB errB : List Nat)
    (code : Int)
    (h1 : env.bannerRaise = none)
    (h2 : env.launch = .completed outB errB code) :
    (run env).raised = none ∧
    (run env).effects =
      [printLn "Starting Audit...", .spawn (buildArgv env.executable),
       printLn "STDOUT:", printLn (decodeIgnore outB),
       printLn "STDERR:", printLn (decodeIgnore errB),
       printLn ("EXIT CODE: " ++ intStr code)] := by
  rw [run_completed env outB errB code h1 h2]
  exact ⟨rfl, rfl⟩

/-- Witness for C4 at exit code 2 with stderr text `error: bad arg`. -/
theorem claim_C4_witness :
    (run ⟨"/usr/bin/python3", none,
      .completed [] [101, 114, 114, 111, 114, 58, 32, 98, 97, 100, 32, 97, 114, 103]
        2⟩).raised = none ∧
    (run ⟨"/usr/bin/python3", none,
      .completed [] [101, 114, 114, 111, 114, 58, 32, 98, 97, 100, 32, 97, 114, 103]
        2⟩).effects =
      [printLn "Starting Audit...", .spawn (buildArgv "/usr/bin/python3"),
       printLn "STDOUT:", printLn (decodeIgnore []),
       printLn "STDERR:",
       printLn (decodeIgnore
         [101, 114, 114, 111, 114, 58, 32, 98, 97, 100, 32, 97, 114, 103]),
       printLn ("EXIT CODE: " ++ intStr 2)] :=
  claim_C4_nonzero_exit_is_data _ _ _ _ rfl rfl

/-- Claim C5: decoding captured output can never fail — under the `ignore`
policy the decoder is total on every byte sequence, valid UTF-8 or not, and
consequently `run` reports a completed child normally whatever bytes its
streams carried. -/
theorem claim_C5_decode_never_fails :
    (∀ bs : List Nat, (decodeUtf8 .ignore bs).isSome = true) ∧
    (∀ (env : Env) (outB errB : List Nat) (code : Int),
      env.bannerRaise = none → env.launch = .completed outB errB code →
      (run env).raised = none) := by
  refine ⟨decodeUtf8_ignore_isSome, ?_⟩
  intro env outB errB code h1 h2
  rw [run_completed env outB errB code h1 h2]

/-- Witness for C5 on byte sequences that are not valid UTF-8. -/
theorem claim_C5_witness :
    (decodeUtf8 .ignore [0xFF, 0xC2, 0x41]).isSome = true ∧
    (run ⟨"/usr/bin/python3", none, .completed [0xFF] [0x80] 0⟩).raised = none :=
  ⟨claim_C5_decode_never_fails.1 [0xFF, 0xC2, 0x41],
   claim_C5_decode_never_fails.2 _ [0xFF] [0x80] 0 rfl rfl⟩

/-- Claim C6: in every run whose banner print succeeds, whatever the launch
outcome, the banner is the first effect of the trace — before the launch
attempt — and the printed output starts with the banner line. -/
theorem claim_C6_banner_first (env : Env) (h1 : env.bannerRaise = none) :
    (∃ rest, (run env).effects = printLn "Starting Audit..." :: rest) ∧
    (∃ t, outputOf (run env).effects = "Starting Audit...\n" ++ t) := by
  rcases hlo : env.launch with ⟨outB, errB, code⟩ | e
  · rw [run_completed env outB errB code h1 hlo]
    exact ⟨⟨_, rfl⟩, ⟨_, rfl⟩⟩
  · rcases e with msg | msg
    · rw [run_exn env msg h1 hlo]
      exact ⟨⟨_, rfl⟩, ⟨_, rfl⟩⟩
    · rw [run_baseOnly env msg h1 hlo]
      exact ⟨⟨_, rfl⟩, ⟨_, rfl⟩⟩

/-- Witness for C6 at a concrete environment. -/
theorem claim_C6_witness :
    (∃ rest, (run ⟨"/usr/bin/python3", none,
        .raised (.exception "boom")⟩).effects =
      printLn "Starting Audit..." :: rest) ∧
    (∃ t, outputOf (run ⟨"/usr/bin/python3", none,
        .raised (.exception "boom")⟩).effects = "Starting Audit...\n" ++ t) :=
  claim_C6_banner_first _ rfl

/-- Claim C7: when the child exits 0 with captured stdout exactly `OK` and
captured stderr empty, the complete printed output is exactly the literal
scenario text. -/
theorem claim_C7_exact_scenario (env : Env) (outB errB : List Nat)
    (h1 : env.bannerRaise = none)
    (h2 : env.launch = .completed outB errB 0)
    (h3 : decodeIgnore outB = "OK")
    (h4 : decodeIgnore errB = "") :
    outputOf (run env).effects =
      "Starting Audit...\nSTDOUT:\nOK\nSTDERR:\n\nEXIT CODE: 0\n" := by
  rw [run_completed env outB errB 0 h1 h2]
  simp only [outputOf, printLn, h3, h4]
  rfl

/-- Witness for C7: stdout bytes `OK`, no stderr bytes, exit code 0. -/
theorem claim_C7_witness :
    outputOf (run ⟨"/usr/bin/python3", none,
        .completed [0x4F, 0x4B] [] 0⟩).effects =
      "Starting Audit...\nSTDOUT:\nOK\nSTDERR:\n\nEXIT CODE: 0\n" :=
  claim_C7_exact_scenario _ [0x4F, 0x4B] [] rfl rfl (by decide) (by decide)

/-- Claim C8: whenever the launch is attempted (the banner print did not
raise), exactly one invocation spec is handed to the process launcher, and
it is the three-token list of the current interpreter, the fixed script
path, and the argument for the current directory. -/
theorem claim_C8_argv (env : Env) (h1 : env.bannerRaise = none) :
    spawnsOf (run env).effects =
      [[env.executable, ".agent/skills/frontend-design/scripts/ux_audit.py", "."]] ∧
    buildArgv env.executable = [env.executable, scriptPath, "."] ∧
    (buildArgv env.executable).length = 3 := by
  rcases hlo : env.launch with ⟨outB, errB, code⟩ | e
  · rw [run_completed env outB errB code h1 hlo]
    exact ⟨rfl, rfl, rfl⟩
  · rcases e with msg | msg
    · rw [run_exn env msg h1 hlo]
      exact ⟨rfl, rfl, rfl⟩
    · rw [run_baseOnly env msg h1 hlo]
      exact ⟨rfl, rfl, rfl⟩

/-- Witness for C8 at a concrete environment. -/
theorem claim_C8_witness :
    spawnsOf (run ⟨"/usr/bin/python3", none, .completed [] [] 0⟩).effects =
      [["/usr/bin/python3", ".agent/skills/frontend-design/scripts/ux_audit.py", "."]] ∧
    buildArgv "/usr/bin/python3" = ["/usr/bin/python3", scriptPath, "."] ∧
    (buildArgv "/usr/bin/python3").length = 3 :=
  claim_C8_argv _ rfl

/-- Claim C9: the only effects of a run are console writes and at most one
launch attempt — exactly one when the banner print succeeds —  and every
effect in the trace is a console write or that single spawn; there is no
second process, file write, network or environment effect in the model of
the source. -/
theorem claim_C9_frame (env : Env) :
    (spawnsOf (run env).effects).length ≤ 1 ∧
    (env.bannerRaise = none →
      (spawnsOf (run env).effects).length = 1 ∧
      ∀ e ∈ (run env).effects,
        (∃ s, e = .printStr s) ∨ e = .spawn (buildArgv env.executable)) := by
  rcases hbr : env.bannerRaise with _ | ex
  · rcases hlo : env.launch with ⟨outB, errB, code⟩ | e
    · rw [run_completed env outB errB code hbr hlo]
      refine ⟨by simp [spawnsOf], fun _ => ⟨rfl, ?_⟩⟩
      intro e he
      fin_cases he
      · exact Or.inl ⟨_, rfl⟩
      · exact Or.inr rfl
      · exact Or.inl ⟨_, rfl⟩
      · exact Or.inl ⟨_, rfl⟩
      · exact Or.inl ⟨_, rfl⟩
      · exact Or.inl ⟨_, rfl⟩
      · exact Or.inl ⟨_, rfl⟩
    · rcases e with msg | msg
      · rw [run_exn env msg hbr hlo]
        refine ⟨by simp [spawnsOf], fun _ => ⟨rfl, ?_⟩⟩
        intro e he
        fin_cases he
        · exact Or.inl ⟨_, rfl⟩
        · exact Or.inr rfl
        · exact Or.inl ⟨_, rfl⟩
      · rw [run_baseOnly env msg hbr hlo]
        refine ⟨by simp [spawnsOf], fun _ => ⟨rfl, ?_⟩⟩
        intro e he
        fin_cases he
        · exact Or.inl ⟨_, rfl⟩
        · exact Or.inr rfl
  · rw [run_bannerRaise env ex hbr]
    refine ⟨by simp [spawnsOf], fun h => ?_⟩
    exact Option.noConfusion h

/-- Witness for C9 at a concrete environment with the banner hypothesis
discharged. -/
theorem claim_C9_witness :
    (spawnsOf (run ⟨"/usr/bin/python3", none, .completed [] [] 0⟩).effects).length ≤ 1 ∧
    (spawnsOf (run ⟨"/usr/bin/python3", none, .completed [] [] 0⟩).effects).length = 1 :=
  ⟨(claim_C9_frame _).1, ((claim_C9_frame _).2 rfl).1⟩

/-- Claim C10 (implicit): the handler catches exactly `Exception`-derived
raises from the guarded launch block.  A raise from the banner print itself
(outside the `try`) propagates with nothing printed; a `BaseException`-only
raise from the launch (such as `SystemExit`) propagates after the banner,
with no `FAILED:` line; an `Exception`-derived raise is caught and turned
into the `FAILED:` line with nothing propagated. -/
theorem claim_C10_catch_scope :
    (∀ (env : Env) (e : Exn), env.bannerRaise = some e →
      run env = ⟨[], some e⟩) ∧
    (∀ (env : Env) (msg : String), env.bannerRaise = none →
      env.launch = .raised (.baseOnly msg) →
      (run env).raised = some (.baseOnly msg) ∧
      (run env).effects =
        [printLn "Starting Audit...", .spawn (buildArgv env.executable)]) ∧
    (∀ (env : Env) (msg : String), env.bannerRaise = none →
      env.launch = .raised (.exception msg) →
      (run env).raised = none ∧
      (run env).effects =
        [printLn "Starting Audit...", .spawn (buildArgv env.executable),
         printLn ("FAILED: " ++ msg)]) := by
  refine ⟨?_, ?_, ?_⟩
  · intro env e h1
    exact run_bannerRaise env e h1
  · intro env msg h1 h2
    rw [run_baseOnly env msg h1 h2]
    exact ⟨rfl, rfl⟩
  · intro env msg h1 h2
    rw [run_exn env msg h1 h2]
    exact ⟨rfl, rfl⟩

/-- Witness for C10 at concrete environments for each of the three
branches. -/
theorem claim_C10_witness :
    run ⟨"/usr/bin/python3", some (.exception "lost stdout"), .completed [] [] 0⟩ =
      ⟨[], some (.exception "lost stdout")⟩ ∧
    (run ⟨"/usr/bin/python3", none, .raised (.baseOnly "SystemExit")⟩).raised =
      some (.baseOnly "SystemExit") ∧
    (run ⟨"/usr/bin/python3", none, .raised (.exception "boom")⟩).raised = none :=
  ⟨claim_C10_catch_scope.1 _ _ rfl,
   (claim_C10_catch_scope.2.1 _ _ rfl rfl).1,
   (claim_C10_catch_scope.2.2 _ _ rfl rfl).1⟩

end DebugAudit
